import Mathlib

/-!
Verification of the dev-timr core against its specification.

Shallow embedding of the four core subsystems:
* the session/timer state machine (`src/unnamed/part_007`),
* the local ledger and stats (`src/lib/store.js`),
* the encrypted secure store (`src/lib/secure-storage.js`),
* the durable queue and its drain loop (`src/lib/queue.js`),
* remote delivery (`src/lib/api.js`) and the credential lifecycle
  (`src/lib/auth.js`).

Times are modelled as `Int` milliseconds (`Date.now()` values) or `Int`
epoch seconds where the source uses them.  Fallible operations return
`Option`; JavaScript `null` is `Option.none`.
-/

namespace DevTimr

/-! ## Session engine (src/unnamed/part_007)

The module-level mutable variables `startTime`, `currentTaskName`,
`sessionClientId`, `isPaused`, `pausedDuration`, `pauseStartTime` become the
fields of an explicit state record. -/

structure EngineState where
  startTime : Option Int
  currentTaskName : Option String
  sessionClientId : Option String
  isPaused : Bool
  pausedDuration : Int
  pauseStartTime : Option Int
deriving Repr, DecidableEq

/-- The all-`null` idle state the module variables start in and are reset to. -/
def idleEngine : EngineState :=
  { startTime := none
  , currentTaskName := none
  , sessionClientId := none
  , isPaused := false
  , pausedDuration := 0
  , pauseStartTime := none }

/-- Model of `startSession(taskName)`: captures `Date.now()`, a fresh `randomUUID()`
(passed in explicitly), resets the pause accumulator. -/
def startSession (now : Int) (clientId : String) (taskName : Option String) :
    EngineState :=
  { startTime := some now
  , currentTaskName := taskName
  , sessionClientId := some clientId
  , isPaused := false
  , pausedDuration := 0
  , pauseStartTime := none }

/-- Model of `pauseSession()`: `if (!startTime || isPaused) return false`. -/
def pauseSession (now : Int) (s : EngineState) : EngineState × Bool :=
  if s.startTime = none ∨ s.isPaused then (s, false)
  else ({ s with isPaused := true, pauseStartTime := some now }, true)

/-- Model of `resumeSession()`: `if (!startTime || !isPaused) return false`;
adds `Date.now() - pauseStartTime` to `pausedDuration`. -/
def resumeSession (now : Int) (s : EngineState) : EngineState × Bool :=
  if s.startTime = none ∨ ¬ s.isPaused then (s, false)
  else
    ({ s with
        pausedDuration := s.pausedDuration + (now - s.pauseStartTime.getD 0)
      , isPaused := false
      , pauseStartTime := none }, true)

/-- The finalized session object handed to `addSession` by `endSession`
(fields `start`, `end`, `duration`, `taskName`, `clientId`). -/
structure SessionRecord where
  startMs : Int
  endMs : Int
  durationMs : Int
  taskName : Option String
  clientId : Option String
deriving Repr, DecidableEq

/-- The pause accumulator after `endSession`'s final fold:
`if (isPaused && pauseStartTime) pausedDuration += Date.now() - pauseStartTime`. -/
def finalPausedDuration (now : Int) (s : EngineState) : Int :=
  if s.isPaused ∧ s.pauseStartTime ≠ none then
    s.pausedDuration + (now - s.pauseStartTime.getD 0)
  else s.pausedDuration

/-- Model of `endSession()`: `if (!startTime) return` (a no-op leaving the state
untouched); otherwise folds the in-flight pause, computes
`duration = endTime - startTime - pausedDuration`, hands the record to
`addSession` (returned here), and resets every field to its idle default. -/
def endSession (now : Int) (s : EngineState) : Option SessionRecord × EngineState :=
  match s.startTime with
  | none => (none, s)
  | some st =>
    let paused := finalPausedDuration now s
    let r : SessionRecord :=
      { startMs := st
      , endMs := now
      , durationMs := now - st - paused
      , taskName := s.currentTaskName
      , clientId := s.sessionClientId }
    (some r, idleEngine)

/-! ### Task-name sanitization (part_007 lines 36-58) -/

/-- Membership in `/[\x00-\x1F\x7F]/` : control characters. -/
def isControlChar (c : Char) : Bool :=
  c.toNat ≤ 0x1F || c.toNat = 0x7F

/-- Membership in `/[<>{}[\]\\|`$]/` : the shell/HTML special characters the source strips
(less-than, greater-than, braces, square brackets, backslash, pipe,
backquote, dollar), given by code point. -/
def isShellSpecial (c : Char) : Bool :=
  c.toNat = 0x3C || c.toNat = 0x3E || c.toNat = 0x7B || c.toNat = 0x7D ||
  c.toNat = 0x5B || c.toNat = 0x5D || c.toNat = 0x5C || c.toNat = 0x7C ||
  c.toNat = 0x60 || c.toNat = 0x24

/-- The white-space set of JavaScript `String.prototype.trim` (WhiteSpace ∪
LineTerminator): tab, LF, VT, FF, CR, space, NBSP, Ogham space, the Unicode
en-quad..hair-space range, LS, PS, NNBSP, MMSP, ideographic space, BOM. -/
def isJsWhitespace (c : Char) : Bool :=
  c.toNat = 0x9 || c.toNat = 0xA || c.toNat = 0xB || c.toNat = 0xC ||
  c.toNat = 0xD || c.toNat = 0x20 || c.toNat = 0xA0 || c.toNat = 0x1680 ||
  (0x2000 ≤ c.toNat && c.toNat ≤ 0x200A) ||
  c.toNat = 0x2028 || c.toNat = 0x2029 || c.toNat = 0x202F ||
  c.toNat = 0x205F || c.toNat = 0x3000 || c.toNat = 0xFEFF

/-- Model of `.trim()` on a character list: drop JS whitespace from both ends. -/
def jsTrim (l : List Char) : List Char :=
  ((l.dropWhile isJsWhitespace).reverse.dropWhile isJsWhitespace).reverse

/-- The chained sanitization pipeline of `sanitizeTaskName`: strip control
characters, strip shell specials, trim, `slice(0, 100)`. -/
def sanitizeCore (name : String) : List Char :=
  (jsTrim ((name.toList.filter (fun c => ! isControlChar c)).filter
      (fun c => ! isShellSpecial c))).take 100

/-- Model of `sanitizeTaskName(name)`: `null`/empty guard, the sanitization pipeline,
and the empty result mapped back to `null` (`return sanitized || null`). -/
def sanitizeTaskName (name : String) : Option String :=
  if name.isEmpty then none
  else if (sanitizeCore name).isEmpty then none
  else some (String.mk (sanitizeCore name))

/-- Model of `setTaskName(taskName)`: stores the sanitized name in
`currentTaskName`. -/
def setTaskName (name : String) (s : EngineState) : EngineState :=
  { s with currentTaskName := sanitizeTaskName name }

/-! ### Pause/resume traces for the duration law -/

/-- Apply one pause-at-`p` / resume-at-`r` pair to the engine. -/
def applyPauseResume (s : EngineState) (pr : Int × Int) : EngineState :=
  (resumeSession pr.2 (pauseSession pr.1 s).1).1

/-- Total paused time of a list of (pauseAt, resumeAt) pairs. -/
def totalPausedMs (pairs : List (Int × Int)) : Int :=
  (pairs.map (fun pr => pr.2 - pr.1)).sum

/-- Run a whole session: start, a list of pause/resume pairs, end. -/
def runSession (t0 : Int) (clientId : String) (taskName : Option String)
    (pairs : List (Int × Int)) (tEnd : Int) : Option SessionRecord :=
  (endSession tEnd (pairs.foldl applyPauseResume (startSession t0 clientId taskName))).1

/-! ## Remote model and delivery (src/lib/api.js)

The Supabase tables `repos`, `tasks`, `sessions` become lists; `insert`
appends.  The response to a `.select(..).single()` probe is list lookup. -/

structure RepoInfo where
  owner : String
  repo : String
deriving Repr, DecidableEq

structure RemoteRepo where
  id : Nat
  ownerName : String
  repoName : String
deriving Repr, DecidableEq

structure RemoteTask where
  id : Nat
  repoId : Nat
  name : String
deriving Repr, DecidableEq

structure RemoteSession where
  userId : String
  repoId : Nat
  taskId : Option Nat
  startTime : Int
  endTime : Int
  clientId : Option String
deriving Repr, DecidableEq

structure Remote where
  repos : List RemoteRepo
  tasks : List RemoteTask
  sessions : List RemoteSession
  nextId : Nat
deriving Repr, DecidableEq

/-- Model of `getOrCreateRepo(owner, repo)`: fetch by (owner_name, repo_name), else
insert a fresh row and return its id. -/
def getOrCreateRepo (owner repoName : String) (r : Remote) : Nat × Remote :=
  match r.repos.find? (fun x => x.ownerName == owner && x.repoName == repoName) with
  | some existing => (existing.id, r)
  | none =>
    (r.nextId,
     { r with
        repos := r.repos ++ [⟨r.nextId, owner, repoName⟩]
      , nextId := r.nextId + 1 })

/-- Model of `getOrCreateTask(repoId, taskName)`: `if (!taskName) return null`, fetch
by (repo_id, name), else insert. -/
def getOrCreateTask (repoId : Nat) (taskName : Option String) (r : Remote) :
    Option Nat × Remote :=
  match taskName with
  | none => (none, r)
  | some name =>
    match r.tasks.find? (fun t => t.repoId == repoId && t.name == name) with
    | some existing => (some existing.id, r)
    | none =>
      (some r.nextId,
       { r with
          tasks := r.tasks ++ [⟨r.nextId, repoId, name⟩]
        , nextId := r.nextId + 1 })

/-- What `isLoggedIn()` / `getSupabaseClient()` / `getCurrentUser()` /
`getRepoInfo()` report at the moment `syncSession` runs. -/
structure SyncCtx where
  loggedIn : Bool
  configured : Bool
  userId : Option String
  cwdRepo : Option RepoInfo
deriving Repr, DecidableEq

/-- A queue entry (`queueSession`): the spread finalized session plus the
repo info and the retry metadata. -/
structure QueueEntry where
  startMs : Int
  endMs : Int
  durationMs : Int
  taskName : Option String
  clientId : Option String
  repo : Option RepoInfo
  queuedAt : Int
  syncAttempts : Nat
  lastError : Option String
deriving Repr, DecidableEq

inductive SyncOutcome where
  | ok (r : Remote)
  | err (msg : String)
deriving Repr, DecidableEq

/-- Model of `syncSession(session)` (api.js 105-168): guards for login, client,
user id and repo info (each a thrown error), `getOrCreateRepo`,
`getOrCreateTask`, then the duplicate probe on `client_id` — a hit is
returned as success without inserting — and finally the insert. -/
def syncSession (ctx : SyncCtx) (s : QueueEntry) (r : Remote) : SyncOutcome :=
  if ctx.loggedIn = false then .err "Not logged in"
  else if ctx.configured = false then .err "Supabase client not available"
  else
    match ctx.userId with
    | none => .err "User ID not found"
    | some uid =>
      match s.repo <|> ctx.cwdRepo with
      | none => .err "Repository info not available"
      | some ri =>
        let rr := getOrCreateRepo ri.owner ri.repo r
        let tt := getOrCreateTask rr.1 s.taskName rr.2
        match s.clientId with
        | some c =>
          if tt.2.sessions.any (fun x => x.clientId == some c) then .ok tt.2
          else
            .ok { tt.2 with sessions := tt.2.sessions ++
                    [⟨uid, rr.1, tt.1, s.startMs, s.endMs, some c⟩] }
        | none =>
          .ok { tt.2 with sessions := tt.2.sessions ++
                  [⟨uid, rr.1, tt.1, s.startMs, s.endMs, none⟩] }

/-! ## Durable queue (src/lib/queue.js) -/

/-- Model of `queueSession(session)`: spread plus `queuedAt`, `syncAttempts: 0`,
`lastError: null`. -/
def queueEntryOf (s : SessionRecord) (ri : RepoInfo) (now : Int) : QueueEntry :=
  { startMs := s.startMs
  , endMs := s.endMs
  , durationMs := s.durationMs
  , taskName := s.taskName
  , clientId := s.clientId
  , repo := some ri
  , queuedAt := now
  , syncAttempts := 0
  , lastError := none }

/-- The loop body of `processQueue` (queue.js 154-170): each entry is
delivered through `sync` (an arbitrary delivery function standing for
`await syncSession`, which may fail); on success it is dropped and `synced`
increments; on failure `syncAttempts` increments, the error is recorded,
and the entry is kept only when `syncAttempts < 10`.
Returns (remaining entries, final remote, synced count, failed count). -/
def processEntries (sync : QueueEntry → Remote → SyncOutcome) :
    List QueueEntry → Remote → List QueueEntry × Remote × Nat × Nat
  | [], r => ([], r, 0, 0)
  | e :: rest, r =>
    match sync e r with
    | .ok r1 =>
      let out := processEntries sync rest r1
      (out.1, out.2.1, out.2.2.1 + 1, out.2.2.2)
    | .err m =>
      let e1 := { e with syncAttempts := e.syncAttempts + 1, lastError := some m }
      let out := processEntries sync rest r
      (if e1.syncAttempts < 10 then e1 :: out.1 else out.1,
       out.2.1, out.2.2.1, out.2.2.2 + 1)

/-! ## Local ledger and store (src/lib/store.js) -/

/-- The object `addSession` pushes onto `store.sessions` (store.js 101-106):
only `start`, `end`, `taskName`, `clientId` — no duration field. -/
structure LedgerEntry where
  startMs : Int
  endMs : Int
  taskName : Option String
  clientId : Option String
deriving Repr, DecidableEq

/-- The projection from the finalized session object to the ledger row. -/
def ledgerEntryOf (s : SessionRecord) : LedgerEntry :=
  { startMs := s.startMs
  , endMs := s.endMs
  , taskName := s.taskName
  , clientId := s.clientId }

/-- Everything `addSession` touches: the per-repo ledger file, the queue
journal, and (through `processQueue`) the remote. -/
structure StoreWorld where
  ledger : List LedgerEntry
  queue : List QueueEntry
  remote : Remote
  ctx : SyncCtx
deriving Repr, DecidableEq

/-- Model of `addSession(session)` (store.js 98-136): always append the four-field
row to the local ledger; then, only when logged in and a repo is known,
`queueSession` and an immediate `processQueue` (delivery function `sync`
abstracts the network). -/
def addSession (sync : QueueEntry → Remote → SyncOutcome) (now : Int)
    (s : SessionRecord) (w : StoreWorld) : StoreWorld :=
  let w1 := { w with ledger := w.ledger ++ [ledgerEntryOf s] }
  if w.ctx.loggedIn then
    match w.ctx.cwdRepo with
    | some ri =>
      let q1 := w1.queue ++ [queueEntryOf s ri now]
      let out := processEntries sync q1 w1.remote
      { w1 with queue := out.1, remote := out.2.1 }
    | none => w1
  else w1

/-- Composition of `endSession` and the awaited `addSession` (part_007 101-137):
the engine no-op guard `if (!startTime) return` short-circuits everything,
writing nothing. -/
def endSessionFull (sync : QueueEntry → Remote → SyncOutcome) (now : Int)
    (es : EngineState) (w : StoreWorld) : EngineState × StoreWorld :=
  match endSession now es with
  | (none, es1) => (es1, w)
  | (some r, es1) => (es1, addSession sync now r w)

/-- Model of `getLocalStats()` (store.js 170-211): per-session
`duration = session.end - session.start`, counted only when positive, into
total / today / week / month buckets.  The calendar predicates (ISO date
string equality, week start, month start) depend on the wall clock and
locale and are passed in. -/
structure LocalStats where
  totalMs : Int
  todayMs : Int
  weekMs : Int
  monthMs : Int
deriving Repr, DecidableEq

/-- The loop body of `getLocalStats`: one session's contribution. -/
def statsStep (isToday inWeek inMonth : LedgerEntry → Bool)
    (st : LocalStats) (s : LedgerEntry) : LocalStats :=
  let duration := s.endMs - s.startMs
  if 0 < duration then
    { totalMs := st.totalMs + duration
    , todayMs := st.todayMs + (if isToday s then duration else 0)
    , weekMs := st.weekMs + (if inWeek s then duration else 0)
    , monthMs := st.monthMs + (if inMonth s then duration else 0) }
  else st

def getLocalStats (isToday inWeek inMonth : LedgerEntry → Bool)
    (sessions : List LedgerEntry) : LocalStats :=
  sessions.foldl (statsStep isToday inWeek inMonth) ⟨0, 0, 0, 0⟩

/-! ## Credential lifecycle (src/lib/auth.js)

The encrypted auth file (read through `readSecureAuthData`, which yields
`null` on absence or any decryption failure) is modelled as an
`Option AuthData`. -/

structure AuthData where
  githubToken : Option String
  supabaseAccessToken : Option String
  supabaseExpiresAt : Option Int
  lastRefresh : Option Int
deriving Repr, DecidableEq

structure AuthFileState where
  authFile : Option AuthData
deriving Repr, DecidableEq

/-- A session as `getSession()` returns it: the stored data plus the
computed `expired` flag. -/
structure SessionView where
  data : AuthData
  expired : Bool
deriving Repr, DecidableEq

/-- JavaScript truthiness of `authData.supabase?.expiresAt`: present and
non-zero. -/
def expiresAtTruthy (e : Option Int) : Bool :=
  match e with
  | none => false
  | some v => v != 0

/-- Model of `getSession()` (auth.js 679-695): `null` when no auth data; otherwise
marks `expired` when the stored epoch-second expiry, converted to ms, is
in the past. -/
def getSession (now : Int) (st : AuthFileState) : Option SessionView :=
  match st.authFile with
  | none => none
  | some a =>
    if expiresAtTruthy a.supabaseExpiresAt ∧ now > a.supabaseExpiresAt.getD 0 * 1000 then
      some { data := a, expired := true }
    else
      some { data := a, expired := false }

/-- Model of `isLoggedIn()` (auth.js 727-730): `session !== null && !session.expired`. -/
def isLoggedIn (now : Int) (st : AuthFileState) : Bool :=
  match getSession now st with
  | none => false
  | some s => ! s.expired

/-- The outcome of the revocation POST in `logout`: an HTTP status, or a
network error (the `catch` branch — e.g. no connectivity). -/
inductive RevokeOutcome where
  | status (code : Nat)
  | netError (msg : String)
deriving Repr, DecidableEq

structure LogoutResult where
  success : Bool
  serverRevoked : Bool
deriving Repr, DecidableEq

/-- Model of `logout(silent)` (auth.js 754-788): best-effort revocation (attempted
only when an access token and the Supabase config exist; any network error
is caught), then `clearAuthData()` unconditionally, then
`return { success: true, serverRevoked }`. -/
def logout (configured : Bool) (revoke : RevokeOutcome) (st : AuthFileState) :
    LogoutResult × AuthFileState :=
  let serverRevoked :=
    match st.authFile with
    | some a =>
      if a.supabaseAccessToken ≠ none ∧ configured then
        match revoke with
        | .status code => code == 200
        | .netError _ => false
      else false
    | none => false
  ({ success := true, serverRevoked := serverRevoked }, { authFile := none })

/-- Model of `shouldRefreshToken(expiresAt)` (auth.js 565-570): false on a falsy
expiry; otherwise true iff `0 < hoursRemaining < 24`.  The real-number
comparisons `msRemaining / 3600000 > 0` and `< 24` are embedded as the
equivalent integer comparisons on `msRemaining`. -/
def shouldRefreshToken (now : Int) (expiresAt : Option Int) : Bool :=
  if ¬ expiresAtTruthy expiresAt then false
  else
    let msRemaining := expiresAt.getD 0 * 1000 - now
    0 < msRemaining && msRemaining < 24 * 60 * 60 * 1000

/-- What the token-refresh endpoint does on a given attempt:
a 200 with a fresh token/expiry/user, a non-200 (carrying the
`requiresReauth` judgement), or a thrown network error. -/
inductive RefreshOutcome where
  | ok (newToken : String) (newExpiresAt : Int)
  | httpFail (requiresReauth : Bool)
  | netError (msg : String)
deriving Repr, DecidableEq

structure RefreshResult where
  success : Bool
  requiresReauth : Bool
deriving Repr, DecidableEq

/-- Model of `refreshToken()` (auth.js 576-622): guards for the stored GitHub token
and the config, posts to the refresh endpoint, rewrites the auth file on
success; a thrown error is caught into `{success:false, requiresReauth:false}`. -/
def refreshToken (configured : Bool) (outcome : RefreshOutcome) (now : Int)
    (st : AuthFileState) : RefreshResult × AuthFileState :=
  match st.authFile with
  | none => ({ success := false, requiresReauth := true }, st)
  | some a =>
    if a.githubToken = none then
      ({ success := false, requiresReauth := true }, st)
    else if ¬ configured then
      ({ success := false, requiresReauth := true }, st)
    else
      match outcome with
      | .ok tok exp =>
        ({ success := true, requiresReauth := false },
         { authFile := some { a with
             supabaseAccessToken := some tok
           , supabaseExpiresAt := some exp
           , lastRefresh := some now } })
      | .httpFail rr => ({ success := false, requiresReauth := rr }, st)
      | .netError _ => ({ success := false, requiresReauth := false }, st)

/-- What `getSessionWithRefresh` hands back to the caller. -/
structure SessionWithRefreshView where
  data : AuthData
  expired : Bool
  requiresReauth : Bool
deriving Repr, DecidableEq

/-- Model of `getSessionWithRefresh()` (auth.js 628-653).  Returns the view handed
to the caller, whether a background (fire-and-forget, non-awaited) refresh
was started, and the auth-file state at return time.  In the expired branch
the synchronous `refreshToken()` result is used; in the proactive branch
`refreshToken().catch(() => {})` is started but its outcome is ignored and
`authData` is returned as read. -/
def getSessionWithRefresh (configured : Bool) (outcome : RefreshOutcome)
    (now : Int) (st : AuthFileState) :
    Option SessionWithRefreshView × Bool × AuthFileState :=
  match st.authFile with
  | none => (none, false, st)
  | some a =>
    if expiresAtTruthy a.supabaseExpiresAt ∧ now > a.supabaseExpiresAt.getD 0 * 1000 then
      let (res, st1) := refreshToken configured outcome now st
      if res.success then
        (st1.authFile.map (fun a1 => ⟨a1, false, false⟩), false, st1)
      else
        (some ⟨a, true, res.requiresReauth⟩, false, st)
    else if shouldRefreshToken now a.supabaseExpiresAt then
      (some ⟨a, false, false⟩, true, st)
    else
      (some ⟨a, false, false⟩, false, st)

/-! ## Device-flow polling (auth.js 439-489) -/

/-- One poll response, as `poll()` inspects it: the two retryable OAuth
error codes, any other error, a granted access token, or a response with
neither error nor token (`return null`). -/
inductive PollResponse where
  | authorizationPending
  | slowDown
  | otherError (msg : String)
  | accessToken (tok : String)
  | empty
deriving Repr, DecidableEq

/-- How `pollForToken` ends: the token together with the number of poll
attempts consumed and the interval in force at that moment; an immediate
error; or the timeout after the attempt budget. -/
inductive PollOutcome where
  | success (token : String) (attemptsUsed : Nat) (finalInterval : Int)
  | authError (msg : String) (attemptsUsed : Nat)
  | timeout
deriving Repr, DecidableEq

/-- The `for (attempt = 0; attempt < maxAttempts; attempt++)` loop with the
closure-captured mutable `interval` (`slow_down` adds 5 to it).  `responses`
maps the attempt index to the server's response; `fuel` is the remaining
attempt budget. -/
def pollAux (responses : Nat → PollResponse) :
    Nat → Nat → Int → PollOutcome
  | _, 0, _ => .timeout
  | attempt, fuel + 1, interval =>
    match responses attempt with
    | .accessToken t => .success t (attempt + 1) interval
    | .otherError m => .authError m (attempt + 1)
    | .slowDown => pollAux responses (attempt + 1) fuel (interval + 5)
    | .authorizationPending => pollAux responses (attempt + 1) fuel interval
    | .empty => pollAux responses (attempt + 1) fuel interval

/-- Model of `pollForToken(deviceCode, interval = 5)` with `maxAttempts = 60`. -/
def pollForToken (responses : Nat → PollResponse) (interval : Int := 5) :
    PollOutcome :=
  pollAux responses 0 60 interval

/-- A response that ends the loop (token granted or a non-retryable error). -/
def decisive (p : PollResponse) : Bool :=
  match p with
  | .accessToken _ => true
  | .otherError _ => true
  | _ => false

/-! ## Secure store (src/lib/secure-storage.js)

The Node `crypto` primitives (SHA-256 and AES-256-GCM) are library calls
external to the repository; they enter the embedding as an abstract
structure.  The AEAD correctness and integrity facts the claims rest on
are stated as hypotheses where needed.  Likewise `JSON.stringify` /
`JSON.parse` over the caller's plaintext type. -/

structure CryptoPrims where
  sha256 : String → String
  gcmEnc : String → String → String → String × String
  gcmDec : String → String → String → String → Option String

structure JsonCodec (α : Type) where
  stringify : α → String
  parse : String → Option α

/-- The versioned envelope `{ v, iv, tag, data }` written to disk. -/
structure EncryptedBlob where
  v : Nat
  iv : String
  tag : String
  data : String
deriving Repr, DecidableEq

/-- Model of `getEncryptionKey()`: SHA-256 of `user : hostname : fixed salt`. -/
def getEncryptionKey (p : CryptoPrims) (user hostname : String) : String :=
  p.sha256 (user ++ ":" ++ hostname ++ ":" ++ "dev-timr-secret-v1")

/-- Model of `encrypt(data)` (secure-storage.js 46-62): derive the key, draw a fresh
iv (passed in — `crypto.randomBytes(16)`), GCM-encrypt the JSON
serialization, return the envelope. -/
def encrypt {α : Type} (p : CryptoPrims) (codec : JsonCodec α)
    (user hostname iv : String) (data : α) : EncryptedBlob :=
  let key := getEncryptionKey p user hostname
  let ea := p.gcmEnc key iv (codec.stringify data)
  { v := 1, iv := iv, tag := ea.2, data := ea.1 }

/-- Model of `decrypt(encryptedStr)` (secure-storage.js 67-86): the whole body is a
`try`/`catch` returning `null`; envelope-parse failure (`none` input here),
authentication failure, and plaintext-parse failure all land there.
The key is re-derived from the same factors. -/
def decrypt {α : Type} (p : CryptoPrims) (codec : JsonCodec α)
    (user hostname : String) (blob : Option EncryptedBlob) : Option α :=
  match blob with
  | none => none
  | some b =>
    match p.gcmDec (getEncryptionKey p user hostname) b.iv b.tag b.data with
    | none => none
    | some plaintext => codec.parse plaintext

/-! ## Auxiliary definitions used by the statements -/

/-- A delivery function that always fails (network down). -/
def failSync (msg : String) : QueueEntry → Remote → SyncOutcome :=
  fun _ _ => .err msg

/-- Number of remote session rows carrying a given `client_id`. -/
def countClient (c : String) (r : Remote) : Nat :=
  (r.sessions.filter (fun s => s.clientId == some c)).length

/-- The sum, over the sessions selected by `p` whose `end - start` is
positive, of `end - start` — the quantity each `getLocalStats` bucket
accumulates. -/
def statsTotal (p : LedgerEntry → Bool) (ss : List LedgerEntry) : Int :=
  (ss.map (fun e =>
      if 0 < e.endMs - e.startMs ∧ p e = true then e.endMs - e.startMs else 0)).sum

/-! ## Helper lemmas -/

/-- Running alternating pause/resume pairs from an unpaused running state
only grows the pause accumulator by the summed pause intervals. -/
theorem foldl_applyPauseResume (pairs : List (Int × Int)) (t0 : Int)
    (task cid : Option String) (acc : Int) :
    pairs.foldl applyPauseResume
      { startTime := some t0, currentTaskName := task, sessionClientId := cid
      , isPaused := false, pausedDuration := acc, pauseStartTime := none } =
      { startTime := some t0, currentTaskName := task, sessionClientId := cid
      , isPaused := false, pausedDuration := acc + totalPausedMs pairs
      , pauseStartTime := none } := by
  induction pairs generalizing acc with
  | nil => simp [totalPausedMs]
  | cons pr rest ih =>
    have hstep : applyPauseResume
        { startTime := some t0, currentTaskName := task, sessionClientId := cid
        , isPaused := false, pausedDuration := acc, pauseStartTime := none } pr =
        { startTime := some t0, currentTaskName := task, sessionClientId := cid
        , isPaused := false, pausedDuration := acc + (pr.2 - pr.1)
        , pauseStartTime := none } := by
      simp [applyPauseResume, pauseSession, resumeSession]
    rw [List.foldl_cons, hstep, ih]
    have : acc + (pr.2 - pr.1) + totalPausedMs rest =
        acc + totalPausedMs (pr :: rest) := by
      simp [totalPausedMs]; ring
    rw [this]

/-- C1: for every session, the finalized duration computed by `end()`
equals `endMs - startMs - totalPausedMs`; in particular, a session started
at T0, paused at T0+120000, resumed at T0+180000, and ended at T0+300000
finalizes with `durationMs = 240000`. -/
theorem endSession_duration_excludes_pauses (t0 tEnd : Int) (cid : String)
    (task : Option String) (pairs : List (Int × Int)) :
    runSession t0 cid task pairs tEnd =
      some { startMs := t0, endMs := tEnd
           , durationMs := tEnd - t0 - totalPausedMs pairs
           , taskName := task, clientId := some cid } ∧
    (runSession t0 cid task [(t0 + 120000, t0 + 180000)] (t0 + 300000)).map
        SessionRecord.durationMs = some 240000 := by
  have hrun : ∀ (ps : List (Int × Int)) (te : Int),
      runSession t0 cid task ps te =
        some { startMs := t0, endMs := te
             , durationMs := te - t0 - totalPausedMs ps
             , taskName := task, clientId := some cid } := by
    intro ps te
    unfold runSession startSession
    rw [foldl_applyPauseResume]
    simp [endSession, finalPausedDuration]
  refine ⟨hrun pairs tEnd, ?_⟩
  rw [hrun]
  simp [totalPausedMs]

/-- Trim, filtering and truncation only remove or keep characters. -/
theorem jsTrim_subset (l : List Char) : ∀ c ∈ jsTrim l, c ∈ l := by
  intro c hc
  unfold jsTrim at hc
  rw [List.mem_reverse] at hc
  have h1 := (List.dropWhile_sublist (l := (l.dropWhile isJsWhitespace).reverse)
    (p := isJsWhitespace)).subset hc
  rw [List.mem_reverse] at h1
  exact (List.dropWhile_sublist (l := l) (p := isJsWhitespace)).subset h1

/-- Every character surviving the sanitization pipeline came through both
filters. -/
theorem sanitizeCore_chars (name : String) :
    ∀ c ∈ sanitizeCore name, isControlChar c = false ∧ isShellSpecial c = false := by
  intro c hc
  unfold sanitizeCore at hc
  have hc2 : c ∈ (name.toList.filter (fun c => ! isControlChar c)).filter
      (fun c => ! isShellSpecial c) :=
    jsTrim_subset _ c (List.take_subset 100 _ hc)
  have hshell := List.of_mem_filter hc2
  have hmem1 : c ∈ name.toList.filter (fun c => ! isControlChar c) :=
    List.mem_of_mem_filter hc2
  have hctrl := List.of_mem_filter hmem1
  simp only [Bool.not_eq_eq_eq_not, Bool.not_true] at hshell hctrl
  exact ⟨hctrl, hshell⟩

/-- The function `sanitizeTaskName` either yields `null` or the nonempty sanitized
pipeline output. -/
theorem sanitizeTaskName_cases (name : String) :
    sanitizeTaskName name = none ∨
    (sanitizeTaskName name = some (String.mk (sanitizeCore name)) ∧
      (sanitizeCore name).isEmpty = false) := by
  unfold sanitizeTaskName
  by_cases h0 : name.isEmpty
  · left; simp [h0]
  · by_cases h1 : (sanitizeCore name).isEmpty
    · left; simp [h0, h1]
    · right
      refine ⟨by simp [h0, h1], ?_⟩
      simpa using h1

/-- C9: `setTaskName` stores exactly the sanitized name; the sanitized name
is never the empty string (empty-after-sanitize becomes `null`), is at most
100 characters long, and contains no control characters and no
shell-special characters; a pure-whitespace input sanitizes to `null`. -/
theorem setTaskName_sanitized (name : String) (es : EngineState) :
    (setTaskName name es).currentTaskName = sanitizeTaskName name ∧
    ((sanitizeTaskName name).map (fun s => s.toList.isEmpty)).getD false = false ∧
    ((sanitizeTaskName name).getD "").length ≤ 100 ∧
    ((sanitizeTaskName name).getD "").toList.all
        (fun c => ! isControlChar c && ! isShellSpecial c) = true ∧
    sanitizeTaskName "   " = none := by
  refine ⟨rfl, ?_, ?_, ?_, by decide⟩
  · rcases sanitizeTaskName_cases name with h | ⟨h, hne⟩
    · simp [h]
    · rw [h]
      simpa using hne
  · rcases sanitizeTaskName_cases name with h | ⟨h, hne⟩
    · simp [h]
    · rw [h]
      have hlen : (String.mk (sanitizeCore name)).length = (sanitizeCore name).length := rfl
      simp only [Option.getD_some, hlen]
      unfold sanitizeCore
      rw [List.length_take]
      exact min_le_left _ _
  · rcases sanitizeTaskName_cases name with h | ⟨h, hne⟩
    · simp [h]
    · rw [h]
      have htl : (String.mk (sanitizeCore name)).toList = sanitizeCore name := rfl
      simp only [Option.getD_some, htl, List.all_eq_true]
      intro c hc
      have := sanitizeCore_chars name c hc
      simp [this.1, this.2]

/-- The drain loop can only shrink the queue or keep it the same size, for
any delivery behaviour. -/
theorem processEntries_remaining_length
    (sync : QueueEntry → Remote → SyncOutcome) :
    ∀ (q : List QueueEntry) (r : Remote),
      (processEntries sync q r).1.length ≤ q.length := by
  intro q
  induction q with
  | nil => intro r; simp [processEntries]
  | cons e rest ih =>
    intro r
    cases h : sync e r with
    | ok r1 =>
      simp only [processEntries, h]
      exact Nat.le_succ_of_le (ih r1)
    | err m =>
      by_cases h10 : e.syncAttempts + 1 < 10
      · simp only [processEntries, h, h10, if_pos, List.length_cons]
        exact Nat.succ_le_succ (ih r)
      · simp only [processEntries, h, if_neg h10]
        exact Nat.le_succ_of_le (ih r)

/-- The function `addSession` appends exactly the four-field row to the ledger in every
branch. -/
theorem addSession_ledger (sync : QueueEntry → Remote → SyncOutcome)
    (now : Int) (s : SessionRecord) (w : StoreWorld) :
    (addSession sync now s w).ledger = w.ledger ++ [ledgerEntryOf s] := by
  unfold addSession
  by_cases h : w.ctx.loggedIn
  · cases hr : w.ctx.cwdRepo <;> simp [h, hr]
  · simp [h]

/-- The function `addSession` grows the queue by at most one entry. -/
theorem addSession_queue_length (sync : QueueEntry → Remote → SyncOutcome)
    (now : Int) (s : SessionRecord) (w : StoreWorld) :
    (addSession sync now s w).queue.length ≤ w.queue.length + 1 := by
  unfold addSession
  by_cases h : w.ctx.loggedIn
  · cases hr : w.ctx.cwdRepo with
    | none => simp [h, hr]
    | some ri =>
      simp only [h, hr, if_pos]
      have hle := processEntries_remaining_length sync
        (w.queue ++ [queueEntryOf s ri now]) w.remote
      simpa using hle
  · simp [h]

/-- Running `endSessionFull` on a started engine: finalize, hand to `addSession`,
reset to idle. -/
theorem endSessionFull_started (sync : QueueEntry → Remote → SyncOutcome)
    (now t0 : Int) (es : EngineState) (w : StoreWorld) :
    endSessionFull sync now { es with startTime := some t0 } w =
      (idleEngine, addSession sync now
        { startMs := t0, endMs := now
        , durationMs := now - t0 -
            finalPausedDuration now { es with startTime := some t0 }
        , taskName := es.currentTaskName
        , clientId := es.sessionClientId } w) := by
  simp [endSessionFull, endSession]

/-- C2: calling `end()` twice in succession produces exactly one finalized
session: the first call appends exactly one ledger entry and at most one
queue entry and resets the engine to idle, and the second call is a no-op
that writes nothing. -/
theorem endSession_twice_is_noop (sync : QueueEntry → Remote → SyncOutcome)
    (now now2 t0 : Int) (es : EngineState) (w : StoreWorld) :
    (endSessionFull sync now { es with startTime := some t0 } w).2.ledger =
      w.ledger ++ [ledgerEntryOf
        { startMs := t0, endMs := now
        , durationMs := now - t0 -
            finalPausedDuration now { es with startTime := some t0 }
        , taskName := es.currentTaskName
        , clientId := es.sessionClientId }] ∧
    (endSessionFull sync now { es with startTime := some t0 } w).2.ledger.length =
      w.ledger.length + 1 ∧
    (endSessionFull sync now { es with startTime := some t0 } w).2.queue.length ≤
      w.queue.length + 1 ∧
    (endSessionFull sync now { es with startTime := some t0 } w).1 = idleEngine ∧
    endSessionFull sync now2
        (endSessionFull sync now { es with startTime := some t0 } w).1
        (endSessionFull sync now { es with startTime := some t0 } w).2 =
      ((endSessionFull sync now { es with startTime := some t0 } w).1,
       (endSessionFull sync now { es with startTime := some t0 } w).2) := by
  rw [endSessionFull_started]
  refine ⟨addSession_ledger sync now _ w, ?_, ?_, rfl, ?_⟩
  · rw [addSession_ledger sync now _ w]
    simp
  · exact addSession_queue_length sync now _ w
  · simp [endSessionFull, endSession, idleEngine]

/-- C4: a queue entry whose delivery has now failed 10 times in total is
removed from the queue by the drain and counted among the failures, an
entry with 9 accumulated failures is retained, and after any drain every
retained entry has `syncAttempts < 10`. -/
theorem drain_attempt_cap (sync : QueueEntry → Remote → SyncOutcome)
    (q : List QueueEntry) (r : Remote) (e : QueueEntry) (m : String) :
    ((processEntries sync q r).1.all
        (fun x => decide (x.syncAttempts < 10))) = true ∧
    processEntries (failSync m) [{ e with syncAttempts := 9 }] r =
      ([], r, 0, 1) ∧
    processEntries (failSync m) [{ e with syncAttempts := 8 }] r =
      ([{ e with syncAttempts := 9, lastError := some m }], r, 0, 1) := by
  refine ⟨?_, by simp [processEntries, failSync], by simp [processEntries, failSync]⟩
  induction q generalizing r with
  | nil => simp [processEntries]
  | cons e1 rest ih =>
    cases h : sync e1 r with
    | ok r1 =>
      simp only [processEntries, h]
      exact ih r1
    | err mm =>
      by_cases h10 : e1.syncAttempts + 1 < 10
      · simp only [processEntries, h, if_pos h10, List.all_cons]
        refine (Bool.and_eq_true _ _).mpr ⟨by simpa using h10, ih r⟩
      · simp only [processEntries, h, if_neg h10]
        exact ih r

/-- The function `getLocalStats` in closed form: each bucket sums `end - start` over the
positive-duration sessions it selects. -/
theorem getLocalStats_closed (isToday inWeek inMonth : LedgerEntry → Bool) :
    ∀ (ss : List LedgerEntry) (st : LocalStats),
      ss.foldl (statsStep isToday inWeek inMonth) st =
        ⟨st.totalMs + statsTotal (fun _ => true) ss
        , st.todayMs + statsTotal isToday ss
        , st.weekMs + statsTotal inWeek ss
        , st.monthMs + statsTotal inMonth ss⟩ := by
  intro ss
  induction ss with
  | nil => intro st; simp [statsTotal]
  | cons e rest ih =>
    intro st
    rw [List.foldl_cons, ih]
    simp only [LocalStats.mk.injEq, statsTotal, List.map_cons, List.sum_cons,
      statsStep]
    refine ⟨?_, ?_, ?_, ?_⟩ <;> split_ifs <;> simp_all <;> omega

/-- C10: the row `addSession` persists carries only start, end, task name
and client id — the pause-excluding `durationMs` computed by `end()` is not
persisted (the projection is insensitive to it) — and every `getLocalStats`
bucket computes each session's duration as `end - start`, which exceeds the
engine's `durationMs` by exactly the accumulated pause time. -/
theorem ledger_entry_omits_duration (sync : QueueEntry → Remote → SyncOutcome)
    (now : Int) (s : SessionRecord) (w : StoreWorld) (d : Int)
    (isToday inWeek inMonth : LedgerEntry → Bool) (ss : List LedgerEntry)
    (es : EngineState) (t0 : Int) :
    (addSession sync now s w).ledger = w.ledger ++ [ledgerEntryOf s] ∧
    ledgerEntryOf { s with durationMs := d } = ledgerEntryOf s ∧
    getLocalStats isToday inWeek inMonth ss =
      ⟨statsTotal (fun _ => true) ss, statsTotal isToday ss
      , statsTotal inWeek ss, statsTotal inMonth ss⟩ ∧
    ((endSession now { es with startTime := some t0 }).1.map
        (fun r => r.endMs - r.startMs - r.durationMs)) =
      some (finalPausedDuration now { es with startTime := some t0 }) := by
  refine ⟨addSession_ledger sync now s w, rfl, ?_, ?_⟩
  · unfold getLocalStats
    rw [getLocalStats_closed]
    simp
  · simp [endSession]

/-- C3: under the AEAD correctness law of AES-256-GCM and for any
JSON-serializable plaintext (one whose serialization parses back to
itself), `decrypt` of `encrypt` returns the original; and `decrypt` of any
blob that fails authentication (e.g. a flipped ciphertext byte), fails
envelope parsing, or fails plaintext parsing returns `null` — it is a total
function into `Option`, never an exception. -/
theorem decrypt_encrypt_roundtrip {α : Type} (p : CryptoPrims)
    (codec : JsonCodec α) (user hostname iv : String) (x : α)
    (hgcm : ∀ key m₀, p.gcmDec key iv (p.gcmEnc key iv m₀).2 (p.gcmEnc key iv m₀).1
      = some m₀)
    (hjson : codec.parse (codec.stringify x) = some x) :
    decrypt p codec user hostname
        (some (encrypt p codec user hostname iv x)) = some x ∧
    (∀ b : EncryptedBlob,
        p.gcmDec (getEncryptionKey p user hostname) b.iv b.tag b.data = none →
        decrypt p codec user hostname (some b) = none) ∧
    decrypt p codec user hostname none = none ∧
    (∀ (b : EncryptedBlob) (pt : String),
        p.gcmDec (getEncryptionKey p user hostname) b.iv b.tag b.data = some pt →
        codec.parse pt = none →
        decrypt p codec user hostname (some b) = none) := by
  refine ⟨?_, ?_, rfl, ?_⟩
  · simp only [decrypt, encrypt]
    rw [hgcm (getEncryptionKey p user hostname) (codec.stringify x)]
    exact hjson
  · intro b hb
    simp [decrypt, hb]
  · intro b pt hb hparse
    simp [decrypt, hb, hparse]

/-- Concrete instantiation of the round-trip law: a toy AEAD whose tag is
`key ++ iv` and the identity codec satisfy both hypotheses. -/
theorem decrypt_encrypt_roundtrip_concrete :
    decrypt ⟨id, fun k iv m => (m, k ++ iv), fun k iv tag data =>
        if tag == k ++ iv then some data else none⟩
      (⟨id, some⟩ : JsonCodec String) "user" "host"
      (some (encrypt ⟨id, fun k iv m => (m, k ++ iv), fun k iv tag data =>
          if tag == k ++ iv then some data else none⟩
        (⟨id, some⟩ : JsonCodec String) "user" "host" "iv16" "credential")) =
      some "credential" :=
  (decrypt_encrypt_roundtrip
    ⟨id, fun k iv m => (m, k ++ iv), fun k iv tag data =>
      if tag == k ++ iv then some data else none⟩
    (⟨id, some⟩ : JsonCodec String) "user" "host" "iv16" "credential"
    (fun key m₀ => by simp) rfl).1

/-- C6: `logout()` always deletes the local credential record — for every
revocation outcome, including a network error — reports local success, and
the session-validity check returns false immediately afterwards. -/
theorem logout_clears_credentials (configured : Bool) (revoke : RevokeOutcome)
    (st : AuthFileState) (now : Int) :
    (logout configured revoke st).2.authFile = none ∧
    isLoggedIn now (logout configured revoke st).2 = false ∧
    (logout configured revoke st).1.success = true := by
  refine ⟨rfl, ?_, rfl⟩
  simp [logout, isLoggedIn, getSession]

/-- C7: a credential expiring 10 hours from now makes the session-fetch
path start a background, non-blocking refresh (remaining validity < 24 h)
while the caller gets the existing data back; one expiring 48 hours from
now does not; and the returned session is independent of the refresh
outcome — a failed background refresh is swallowed. -/
theorem background_refresh_thresholds (nSec : Int) (hpos : 0 < nSec)
    (a : AuthData) (configured : Bool) (outcome outcome2 : RefreshOutcome) :
    (getSessionWithRefresh configured outcome (nSec * 1000)
        ⟨some { a with supabaseExpiresAt := some (nSec + 36000) }⟩ =
      (some ⟨{ a with supabaseExpiresAt := some (nSec + 36000) }, false, false⟩,
       true, ⟨some { a with supabaseExpiresAt := some (nSec + 36000) }⟩)) ∧
    (getSessionWithRefresh configured outcome (nSec * 1000)
        ⟨some { a with supabaseExpiresAt := some (nSec + 172800) }⟩ =
      (some ⟨{ a with supabaseExpiresAt := some (nSec + 172800) }, false, false⟩,
       false, ⟨some { a with supabaseExpiresAt := some (nSec + 172800) }⟩)) ∧
    (getSessionWithRefresh configured outcome (nSec * 1000)
        ⟨some { a with supabaseExpiresAt := some (nSec + 36000) }⟩ =
     getSessionWithRefresh configured outcome2 (nSec * 1000)
        ⟨some { a with supabaseExpiresAt := some (nSec + 36000) }⟩) := by
  have e36 : expiresAtTruthy (some (nSec + 36000)) = true := by
    simp only [expiresAtTruthy, bne_iff_ne, ne_eq]
    omega
  have e172 : expiresAtTruthy (some (nSec + 172800)) = true := by
    simp only [expiresAtTruthy, bne_iff_ne, ne_eq]
    omega
  have hnot36 : ¬ (nSec * 1000 > (nSec + 36000) * 1000) := by omega
  have hnot172 : ¬ (nSec * 1000 > (nSec + 172800) * 1000) := by omega
  have h36 : shouldRefreshToken (nSec * 1000) (some (nSec + 36000)) = true := by
    simp only [shouldRefreshToken, e36, Option.getD_some, not_true, if_false,
      Bool.and_eq_true, decide_eq_true_eq]
    refine ⟨by omega, by omega⟩
  have h172 : shouldRefreshToken (nSec * 1000) (some (nSec + 172800)) = false := by
    simp only [shouldRefreshToken, e172, Option.getD_some, not_true, if_false,
      Bool.and_eq_false_iff, decide_eq_false_iff_not]
    right
    omega
  refine ⟨?_, ?_, ?_⟩
  · simp [getSessionWithRefresh, e36, hnot36, h36]
  · simp [getSessionWithRefresh, e172, hnot172, h172]
  · simp [getSessionWithRefresh, e36, hnot36, h36]

/-- Concrete instantiation of the refresh thresholds at epoch second
1700000000 with a failing network: the 10-hour credential triggers the
background refresh, the 48-hour one does not. -/
theorem background_refresh_thresholds_witness :
    (getSessionWithRefresh true (.netError "offline") (1700000000 * 1000)
        ⟨some ⟨none, none, some (1700000000 + 36000), none⟩⟩).2.1 = true ∧
    (getSessionWithRefresh true (.netError "offline") (1700000000 * 1000)
        ⟨some ⟨none, none, some (1700000000 + 172800), none⟩⟩).2.1 = false := by
  have h := background_refresh_thresholds 1700000000 (by norm_num)
    ⟨none, none, none, none⟩ true (.netError "offline") (.ok "t" 0)
  exact ⟨(congrArg (fun t => t.2.1) h.1).trans rfl,
         (congrArg (fun t => t.2.1) h.2.1).trans rfl⟩

/-- With no decisive response inside the attempt window, the poll loop runs
out of fuel and times out. -/
theorem pollAux_timeout (r : Nat → PollResponse) :
    ∀ (fuel a : Nat) (j : Int),
      (∀ k, a ≤ k → k < a + fuel → decisive (r k) = false) →
      pollAux r a fuel j = .timeout := by
  intro fuel
  induction fuel with
  | zero => intro a j _; rfl
  | succ f ih =>
    intro a j h
    have ha : decisive (r a) = false := h a le_rfl (by omega)
    cases hr : r a with
    | accessToken t => rw [hr] at ha; simp [decisive] at ha
    | otherError m => rw [hr] at ha; simp [decisive] at ha
    | slowDown =>
      simp only [pollAux, hr]
      exact ih (a + 1) (j + 5) (fun k hk1 hk2 => h k (by omega) (by omega))
    | authorizationPending =>
      simp only [pollAux, hr]
      exact ih (a + 1) j (fun k hk1 hk2 => h k (by omega) (by omega))
    | empty =>
      simp only [pollAux, hr]
      exact ih (a + 1) j (fun k hk1 hk2 => h k (by omega) (by omega))

/-- A successful poll consumed at most the fuel, its last response was the
granted token, and every earlier response in the window was indecisive. -/
theorem pollAux_success (r : Nat → PollResponse) :
    ∀ (fuel a : Nat) (j : Int) (t : String) (n : Nat) (jj : Int),
      pollAux r a fuel j = .success t n jj →
      a < n ∧ n ≤ a + fuel ∧ r (n - 1) = .accessToken t ∧
        ∀ k, a ≤ k → k < n - 1 → decisive (r k) = false := by
  intro fuel
  induction fuel with
  | zero => intro a j t n jj h; simp [pollAux] at h
  | succ f ih =>
    intro a j t n jj h
    cases hr : r a with
    | accessToken t0 =>
      simp only [pollAux, hr, PollOutcome.success.injEq] at h
      obtain ⟨ht, hn, _⟩ := h
      subst ht hn
      refine ⟨by omega, by omega, by simpa using hr, ?_⟩
      intro k hk1 hk2
      exact absurd hk2 (by omega)
    | otherError m =>
      simp only [pollAux, hr] at h
      exact PollOutcome.noConfusion h
    | slowDown =>
      simp only [pollAux, hr] at h
      obtain ⟨h1, h2, h3, h4⟩ := ih (a + 1) (j + 5) t n jj h
      refine ⟨by omega, by omega, h3, ?_⟩
      intro k hk1 hk2
      rcases Nat.eq_or_lt_of_le hk1 with hk | hk
      · rw [← hk, hr]; rfl
      · exact h4 k (by omega) hk2
    | authorizationPending =>
      simp only [pollAux, hr] at h
      obtain ⟨h1, h2, h3, h4⟩ := ih (a + 1) j t n jj h
      refine ⟨by omega, by omega, h3, ?_⟩
      intro k hk1 hk2
      rcases Nat.eq_or_lt_of_le hk1 with hk | hk
      · rw [← hk, hr]; rfl
      · exact h4 k (by omega) hk2
    | empty =>
      simp only [pollAux, hr] at h
      obtain ⟨h1, h2, h3, h4⟩ := ih (a + 1) j t n jj h
      refine ⟨by omega, by omega, h3, ?_⟩
      intro k hk1 hk2
      rcases Nat.eq_or_lt_of_le hk1 with hk | hk
      · rw [← hk, hr]; rfl
      · exact h4 k (by omega) hk2

/-- A failed poll likewise stayed inside the fuel window, ended on the
first non-retryable error, and every earlier response was indecisive. -/
theorem pollAux_authError (r : Nat → PollResponse) :
    ∀ (fuel a : Nat) (j : Int) (m : String) (n : Nat),
      pollAux r a fuel j = .authError m n →
      a < n ∧ n ≤ a + fuel ∧ r (n - 1) = .otherError m ∧
        ∀ k, a ≤ k → k < n - 1 → decisive (r k) = false := by
  intro fuel
  induction fuel with
  | zero => intro a j m n h; simp [pollAux] at h
  | succ f ih =>
    intro a j m n h
    cases hr : r a with
    | accessToken t0 =>
      simp only [pollAux, hr] at h
      exact PollOutcome.noConfusion h
    | otherError m0 =>
      simp only [pollAux, hr, PollOutcome.authError.injEq] at h
      obtain ⟨hm, hn⟩ := h
      subst hm hn
      refine ⟨by omega, by omega, by simpa using hr, ?_⟩
      intro k hk1 hk2
      exact absurd hk2 (by omega)
    | slowDown =>
      simp only [pollAux, hr] at h
      obtain ⟨h1, h2, h3, h4⟩ := ih (a + 1) (j + 5) m n h
      refine ⟨by omega, by omega, h3, ?_⟩
      intro k hk1 hk2
      rcases Nat.eq_or_lt_of_le hk1 with hk | hk
      · rw [← hk, hr]; rfl
      · exact h4 k (by omega) hk2
    | authorizationPending =>
      simp only [pollAux, hr] at h
      obtain ⟨h1, h2, h3, h4⟩ := ih (a + 1) j m n h
      refine ⟨by omega, by omega, h3, ?_⟩
      intro k hk1 hk2
      rcases Nat.eq_or_lt_of_le hk1 with hk | hk
      · rw [← hk, hr]; rfl
      · exact h4 k (by omega) hk2
    | empty =>
      simp only [pollAux, hr] at h
      obtain ⟨h1, h2, h3, h4⟩ := ih (a + 1) j m n h
      refine ⟨by omega, by omega, h3, ?_⟩
      intro k hk1 hk2
      rcases Nat.eq_or_lt_of_le hk1 with hk | hk
      · rw [← hk, hr]; rfl
      · exact h4 k (by omega) hk2

/-- C8: device-flow polling makes at most 60 attempts; on
`authorization_pending` it continues with the same interval, on `slow_down`
it continues with the interval increased by 5 seconds, on any other error it
fails immediately with that error, on a granted token it stops with it, and
an indecisive full window ends in the timeout error. -/
theorem pollForToken_bounded (r : Nat → PollResponse) (i : Int) :
    (∀ (a f : Nat) (j : Int), r a = .authorizationPending →
        pollAux r a (f + 1) j = pollAux r (a + 1) f j) ∧
    (∀ (a f : Nat) (j : Int), r a = .slowDown →
        pollAux r a (f + 1) j = pollAux r (a + 1) f (j + 5)) ∧
    (∀ (a f : Nat) (j : Int) (m : String), r a = .otherError m →
        pollAux r a (f + 1) j = .authError m (a + 1)) ∧
    (∀ (a f : Nat) (j : Int) (t : String), r a = .accessToken t →
        pollAux r a (f + 1) j = .success t (a + 1) j) ∧
    ((∀ k, k < 60 → decisive (r k) = false) → pollForToken r i = .timeout) ∧
    (∀ (t : String) (n : Nat) (jj : Int), pollForToken r i = .success t n jj →
        n ≤ 60 ∧ r (n - 1) = .accessToken t ∧
          ∀ k, k < n - 1 → decisive (r k) = false) ∧
    (∀ (m : String) (n : Nat), pollForToken r i = .authError m n →
        n ≤ 60 ∧ r (n - 1) = .otherError m ∧
          ∀ k, k < n - 1 → decisive (r k) = false) := by
  refine ⟨?_, ?_, ?_, ?_, ?_, ?_, ?_⟩
  · intro a f j h; simp [pollAux, h]
  · intro a f j h; simp [pollAux, h]
  · intro a f j m h; simp [pollAux, h]
  · intro a f j t h; simp [pollAux, h]
  · intro h
    exact pollAux_timeout r 60 0 i (fun k _ hk => h k (by omega))
  · intro t n jj h
    obtain ⟨h1, h2, h3, h4⟩ := pollAux_success r 60 0 i t n jj h
    exact ⟨by omega, h3, fun k hk => h4 k (by omega) hk⟩
  · intro m n h
    obtain ⟨h1, h2, h3, h4⟩ := pollAux_authError r 60 0 i m n h
    exact ⟨by omega, h3, fun k hk => h4 k (by omega) hk⟩

/-- Concrete instantiation of the polling laws: a `slow_down` first response
widens the interval from 5 to 10 seconds, and a window of nothing but
`authorization_pending` times out. -/
theorem pollForToken_bounded_witness :
    pollAux (fun k => if k = 0 then .slowDown else .accessToken "tok") 0 60 5 =
      pollAux (fun k => if k = 0 then .slowDown else .accessToken "tok") 1 59 10 ∧
    pollForToken (fun _ => .authorizationPending) 7 = .timeout := by
  constructor
  · have h := (pollForToken_bounded
      (fun k => if k = 0 then .slowDown else .accessToken "tok") 5).2.1 0 59 5 rfl
    simpa using h
  · exact (pollForToken_bounded (fun _ => .authorizationPending) 7).2.2.2.2.1
      (fun k _ => rfl)

/-- The function `getOrCreateRepo` never touches the sessions table. -/
theorem getOrCreateRepo_sessions (o n : String) (r : Remote) :
    (getOrCreateRepo o n r).2.sessions = r.sessions := by
  unfold getOrCreateRepo
  cases h : r.repos.find? (fun x => x.ownerName == o && x.repoName == n) <;>
    simp [h]

/-- The function `getOrCreateTask` never touches the sessions table. -/
theorem getOrCreateTask_sessions (repoId : Nat) (tn : Option String)
    (r : Remote) :
    (getOrCreateTask repoId tn r).2.sessions = r.sessions := by
  unfold getOrCreateTask
  cases tn with
  | none => rfl
  | some name =>
    cases h : r.tasks.find? (fun t => t.repoId == repoId && t.name == name) <;>
      simp [h]

/-- With the guards satisfied and a `clientId` present, `syncSession`
reduces to the duplicate probe followed by either skip or insert. -/
theorem syncSession_reduces (ctx : SyncCtx) (uid : String) (e : QueueEntry)
    (ri : RepoInfo) (c : String) (r : Remote)
    (hL : ctx.loggedIn = true) (hC : ctx.configured = true)
    (hU : ctx.userId = some uid) (hcid : e.clientId = some c)
    (hrepo : e.repo = some ri) :
    syncSession ctx e r =
      (if (getOrCreateTask (getOrCreateRepo ri.owner ri.repo r).1 e.taskName
            (getOrCreateRepo ri.owner ri.repo r).2).2.sessions.any
            (fun x => x.clientId == some c)
       then .ok (getOrCreateTask (getOrCreateRepo ri.owner ri.repo r).1
            e.taskName (getOrCreateRepo ri.owner ri.repo r).2).2
       else .ok { (getOrCreateTask (getOrCreateRepo ri.owner ri.repo r).1
            e.taskName (getOrCreateRepo ri.owner ri.repo r).2).2 with
          sessions := (getOrCreateTask (getOrCreateRepo ri.owner ri.repo r).1
              e.taskName (getOrCreateRepo ri.owner ri.repo r).2).2.sessions ++
            [⟨uid, (getOrCreateRepo ri.owner ri.repo r).1,
              (getOrCreateTask (getOrCreateRepo ri.owner ri.repo r).1
                e.taskName (getOrCreateRepo ri.owner ri.repo r).2).1,
              e.startMs, e.endMs, some c⟩] }) := by
  unfold syncSession
  rw [hL, hC, hU, hrepo, hcid]
  simp

/-- When a remote record with the entry's `clientId` already exists, the
delivery path reports success without inserting. -/
theorem syncSession_dedup_hit (ctx : SyncCtx) (uid : String) (e : QueueEntry)
    (ri : RepoInfo) (c : String) (r : Remote)
    (hL : ctx.loggedIn = true) (hC : ctx.configured = true)
    (hU : ctx.userId = some uid) (hcid : e.clientId = some c)
    (hrepo : e.repo = some ri)
    (hdup : r.sessions.any (fun x => x.clientId == some c) = true) :
    ∃ r2, syncSession ctx e r = .ok r2 ∧ r2.sessions = r.sessions := by
  have hsame : (getOrCreateTask (getOrCreateRepo ri.owner ri.repo r).1
      e.taskName (getOrCreateRepo ri.owner ri.repo r).2).2.sessions =
      r.sessions := by
    rw [getOrCreateTask_sessions, getOrCreateRepo_sessions]
  refine ⟨(getOrCreateTask (getOrCreateRepo ri.owner ri.repo r).1 e.taskName
    (getOrCreateRepo ri.owner ri.repo r).2).2, ?_, hsame⟩
  rw [syncSession_reduces ctx uid e ri c r hL hC hU hcid hrepo, hsame, hdup]
  rfl

/-- When no remote record with the entry's `clientId` exists, the delivery
path inserts exactly one row carrying it. -/
theorem syncSession_dedup_insert (ctx : SyncCtx) (uid : String)
    (e : QueueEntry) (ri : RepoInfo) (c : String) (r : Remote)
    (hL : ctx.loggedIn = true) (hC : ctx.configured = true)
    (hU : ctx.userId = some uid) (hcid : e.clientId = some c)
    (hrepo : e.repo = some ri)
    (hdup : r.sessions.any (fun x => x.clientId == some c) = false) :
    ∃ r2 rid tid, syncSession ctx e r = .ok r2 ∧
      r2.sessions = r.sessions ++
        [⟨uid, rid, tid, e.startMs, e.endMs, some c⟩] := by
  have hsame : (getOrCreateTask (getOrCreateRepo ri.owner ri.repo r).1
      e.taskName (getOrCreateRepo ri.owner ri.repo r).2).2.sessions =
      r.sessions := by
    rw [getOrCreateTask_sessions, getOrCreateRepo_sessions]
  refine ⟨{ (getOrCreateTask (getOrCreateRepo ri.owner ri.repo r).1 e.taskName
        (getOrCreateRepo ri.owner ri.repo r).2).2 with
      sessions := (getOrCreateTask (getOrCreateRepo ri.owner ri.repo r).1
          e.taskName (getOrCreateRepo ri.owner ri.repo r).2).2.sessions ++
        [⟨uid, (getOrCreateRepo ri.owner ri.repo r).1,
          (getOrCreateTask (getOrCreateRepo ri.owner ri.repo r).1 e.taskName
            (getOrCreateRepo ri.owner ri.repo r).2).1,
          e.startMs, e.endMs, some c⟩] },
    (getOrCreateRepo ri.owner ri.repo r).1,
    (getOrCreateTask (getOrCreateRepo ri.owner ri.repo r).1 e.taskName
      (getOrCreateRepo ri.owner ri.repo r).2).1, ?_, ?_⟩
  · rw [syncSession_reduces ctx uid e ri c r hL hC hU hcid hrepo, hsame, hdup]
    rfl
  · rw [hsame]

/-- C5: remote delivery is idempotent by clientId — enqueuing the same
clientId twice and draining once yields exactly one remote record with that
clientId, both entries reported as synced and the queue left empty, because
the delivery path probes for an existing record with the same clientId
before inserting and treats a match as success. -/
theorem drain_idempotent_by_clientId (ctx : SyncCtx) (uid : String)
    (e1 e2 : QueueEntry) (ri1 ri2 : RepoInfo) (c : String) (r0 : Remote)
    (hL : ctx.loggedIn = true) (hC : ctx.configured = true)
    (hU : ctx.userId = some uid)
    (h1 : e1.clientId = some c) (h2 : e2.clientId = some c)
    (hr1 : e1.repo = some ri1) (hr2 : e2.repo = some ri2)
    (h0 : r0.sessions.any (fun x => x.clientId == some c) = false) :
    countClient c (processEntries (syncSession ctx) [e1, e2] r0).2.1 = 1 ∧
    (processEntries (syncSession ctx) [e1, e2] r0).1 = [] ∧
    (processEntries (syncSession ctx) [e1, e2] r0).2.2 = (2, 0) := by
  obtain ⟨r1, rid, tid, hs1, hsess1⟩ :=
    syncSession_dedup_insert ctx uid e1 ri1 c r0 hL hC hU h1 hr1 h0
  have hany1 : r1.sessions.any (fun x => x.clientId == some c) = true := by
    rw [hsess1, List.any_append]
    simp
  obtain ⟨r2, hs2, hsess2⟩ :=
    syncSession_dedup_hit ctx uid e2 ri2 c r1 hL hC hU h2 hr2 hany1
  have hrun : processEntries (syncSession ctx) [e1, e2] r0 =
      ([], r2, 2, 0) := by
    simp [processEntries, hs1, hs2]
  rw [hrun]
  refine ⟨?_, rfl, rfl⟩
  have hzero : r0.sessions.filter (fun s => s.clientId == some c) = [] := by
    rw [List.filter_eq_nil_iff]
    intro x hx
    rw [List.any_eq_false] at h0
    simpa using h0 x hx
  unfold countClient
  rw [hsess2, hsess1, List.filter_append, hzero]
  simp

/-- Concrete instantiation of the idempotence law: the same entry queued
twice against an empty remote drains to exactly one remote record. -/
theorem drain_idempotent_by_clientId_witness :
    countClient "c" (processEntries
      (syncSession ⟨true, true, some "u", none⟩)
      [⟨0, 10, 10, some "t", some "c", some ⟨"o", "r"⟩, 0, 0, none⟩,
       ⟨0, 10, 10, some "t", some "c", some ⟨"o", "r"⟩, 0, 0, none⟩]
      ⟨[], [], [], 1⟩).2.1 = 1 :=
  (drain_idempotent_by_clientId ⟨true, true, some "u", none⟩ "u"
    ⟨0, 10, 10, some "t", some "c", some ⟨"o", "r"⟩, 0, 0, none⟩
    ⟨0, 10, 10, some "t", some "c", some ⟨"o", "r"⟩, 0, 0, none⟩
    ⟨"o", "r"⟩ ⟨"o", "r"⟩ "c" ⟨[], [], [], 1⟩
    rfl rfl rfl rfl rfl rfl rfl rfl).1

end DevTimr
